import Mathlib

/-
Verification of the repository-mapping layer (`src/pip/_internal/map/map.py`):
the `Map` loader/validator (`Map.__init__`, lines 29-153) and the lazy
resolver (`Map.resolve`, lines 155-197).  The Python module is shallowly
embedded: JSON documents become the inductive `JVal`, the validation code
becomes `Except`-valued functions mirroring the source checks in source
order, and the `resolve` generator is modelled by the finite trace of
index-groups it yields together with its terminal outcome.
-/

namespace PipMap

/-- JSON values as produced by `json.load` (map.py line 34).  Objects are
modelled as association lists in insertion order with distinct keys, which
is what a parsed Python dict provides; JSON numbers are modelled as
integers (no claim concerns float-valued documents). -/
inductive JVal where
  | jnull
  | jbool (b : Bool)
  | jint (n : Int)
  | jstr (s : String)
  | jarr (items : List JVal)
  | jobj (fields : List (String × JVal))

/-- One entry of the internal mapping list (class `Mapping`, map.py
lines 16-24). -/
structure Mapping where
  paths : List String
  repositories : List String
  terminating : Bool
  threshold : Int
  deriving DecidableEq

/-- The validated state stored by `Map.__init__` (map.py lines 151-153):
the repositories dict (name to URL list, insertion order) and the list of
mappings. -/
structure Map where
  repositories : List (String × List String)
  mappings : List Mapping
  deriving DecidableEq

/-- The distinct error kinds of `MapFileCouldNotBeLoaded`, one per raise
site of `Map.__init__`, named after the spec's enumeration; each carries
the offending value the source interpolates into its reason string. -/
inductive LoadErr where
  | missingRepositories
  | repositoryNotList (name : String)
  | invalidRepositoryURL (name : String) (v : JVal)
  | missingMapping
  | mappingNotList (v : JVal)
  | mappingEntryNotObject (v : JVal)
  | pathsNotList (v : JVal)
  | invalidPath (v : JVal)
  | duplicatePaths (ps : List String)
  | repositoriesNotList (v : JVal)
  | unknownRepositoryReference (v : JVal)
  | duplicateRepositoryReference (rs : List String)
  | invalidTerminatingFlag (v : JVal)
  | invalidThreshold (v : JVal)

/-- Failure modes of `Map.__init__`: either the typed
`MapFileCouldNotBeLoaded` exception, or a raw Python `AttributeError`
escaping from an attribute access on a value of the wrong type (the code
calls `.get`/`.items` without an isinstance check at lines 37 and 45). -/
inductive PyFailure where
  | config (e : LoadErr)
  | attributeError (attr : String)

/-- Python dict lookup on a parsed dict modelled as an association list in
insertion order with distinct keys; used for both `d.get(key)` and
`d[key]` (the latter distinguished by how a `none` result is handled). -/
def alookup {α : Type} : List (String × α) → String → Option α
  | [], _ => none
  | (k, v) :: rest, key => if k = key then some v else alookup rest key

/-- `d.get(key)` on a parsed-JSON dict. -/
def jget : List (String × JVal) → String → Option JVal :=
  alookup

/-- Python truthiness of a parsed-JSON value, as used by
`if not repositories` (line 38) and `if not _mappings` (line 62). -/
def pyFalsy : JVal → Bool
  | .jnull => true
  | .jbool b => !b
  | .jint n => n == 0
  | .jstr s => s.data.isEmpty
  | .jarr items => items.isEmpty
  | .jobj fields => fields.isEmpty

/-- A `\w` word character of the source regexes, modelled over the ASCII
range (letters, digits, underscore). -/
def wordChar (c : Char) : Bool :=
  c.isAlpha || c.isDigit || c = '_'

/-- A character of the restricted path class `[\w/\*]` (map.py line 95). -/
def pathChar (c : Char) : Bool :=
  wordChar c || c = '/' || c = '*'

/-- `re.match(r"[\w/\*]+", s)` viewed as a Boolean (map.py line 95).
`re.match` is anchored only at the start, so it succeeds exactly when the
string is non-empty and its FIRST character lies in the class; later
characters are unconstrained. -/
def rePathMatch (s : String) : Bool :=
  match s.data with
  | [] => false
  | c :: _ => pathChar c

/-- `re.match(r"(https://)(.+)", s)` viewed as a Boolean (map.py line 54):
the string starts with `https://` and at least one non-newline character
follows the scheme. -/
def reHttpsMatch (s : String) : Bool :=
  (s.data.take 8 == "https://".data) &&
    (match s.data.drop 8 with
     | [] => false
     | c :: _ => c != '\n')

/-- `len(set(l))` for a list of strings: the number of distinct elements
(map.py lines 101 and 122). -/
def distinctCount : List String → Nat
  | [] => 0
  | s :: rest => (if s ∈ rest then 0 else 1) + distinctCount rest

/-- URL validation loop over one repository's list (map.py lines 53-58),
returning the validated URLs in order. -/
def checkUrlList (name : String) : List JVal → Except LoadErr (List String)
  | [] => .ok []
  | .jstr s :: rest =>
    if reHttpsMatch s then
      match checkUrlList name rest with
      | .error e => .error e
      | .ok us => .ok (s :: us)
    else .error (.invalidRepositoryURL name (.jstr s))
  | v :: _ => .error (.invalidRepositoryURL name v)

/-- The repositories validation loop (map.py lines 44-58): every value must
be a list whose members are valid HTTPS URL strings. -/
def checkRepos : List (String × JVal) → Except LoadErr (List (String × List String))
  | [] => .ok []
  | (name, .jarr us) :: rest =>
    match checkUrlList name us with
    | .error e => .error e
    | .ok urls =>
      match checkRepos rest with
      | .error e => .error e
      | .ok tail => .ok ((name, urls) :: tail)
  | (name, _) :: _ => .error (.repositoryNotList name)

/-- Per-path validation loop (map.py lines 94-99): each path must be a
string accepted by the unanchored `[\w/\*]+` match. -/
def checkPathItems : List JVal → Except LoadErr (List String)
  | [] => .ok []
  | .jstr s :: rest =>
    if rePathMatch s then
      match checkPathItems rest with
      | .error e => .error e
      | .ok ps => .ok (s :: ps)
    else .error (.invalidPath (.jstr s))
  | v :: _ => .error (.invalidPath v)

/-- The `paths` block of one mapping entry (map.py lines 85-105): the value
must be a list (a missing key yields Python `None`, which also fails the
isinstance check), each member must pass the path match, and then the
source compares `len(paths) < len(set(paths))` - note the direction of
that comparison, taken verbatim from line 101. -/
def checkPaths (entry : List (String × JVal)) : Except LoadErr (List String) :=
  match jget entry "paths" with
  | some (.jarr items) =>
    match checkPathItems items with
    | .error e => .error e
    | .ok ps =>
      if ps.length < distinctCount ps then .error (.duplicatePaths ps) else .ok ps
  | some v => .error (.pathsNotList v)
  | none => .error (.pathsNotList .jnull)

/-- Per-reference validation loop (map.py lines 115-120): each referenced
repository must be a string naming a key of the top-level repositories
dict. -/
def checkRefItems (keys : List String) : List JVal → Except LoadErr (List String)
  | [] => .ok []
  | .jstr s :: rest =>
    if s ∈ keys then
      match checkRefItems keys rest with
      | .error e => .error e
      | .ok rs => .ok (s :: rs)
    else .error (.unknownRepositoryReference (.jstr s))
  | v :: _ => .error (.unknownRepositoryReference v)

/-- The `repositories` block of one mapping entry (map.py lines 108-126),
ending with the verbatim `len(l) < len(set(l))` comparison of line 122. -/
def checkRepoRefs (keys : List String) (entry : List (String × JVal)) :
    Except LoadErr (List String) :=
  match jget entry "repositories" with
  | some (.jarr items) =>
    match checkRefItems keys items with
    | .error e => .error e
    | .ok rs =>
      if rs.length < distinctCount rs then .error (.duplicateRepositoryReference rs)
      else .ok rs
  | some v => .error (.repositoriesNotList v)
  | none => .error (.repositoriesNotList .jnull)

/-- The `terminating` flag (map.py lines 129-134): defaults to true when
absent, must be a Boolean when present. -/
def checkTerminating (entry : List (String × JVal)) : Except LoadErr Bool :=
  match jget entry "terminating" with
  | none => .ok true
  | some (.jbool b) => .ok b
  | some v => .error (.invalidTerminatingFlag v)

/-- The bounds check of map.py line 138: `threshold < 1 or threshold >
len(_repositories)` rejects the value. -/
def thresholdBounds (nreps : Nat) (t : Int) : Except LoadErr Int :=
  if t < 1 || t > (nreps : Int) then .error (.invalidThreshold (.jint t)) else .ok t

/-- The `threshold` field (map.py lines 137-142): defaults to the number of
the entry's repositories; `isinstance(x, int)` also accepts Python
Booleans (bool is a subclass of int), valued 1 and 0. -/
def checkThreshold (nreps : Nat) (entry : List (String × JVal)) : Except LoadErr Int :=
  match jget entry "threshold" with
  | none => thresholdBounds nreps (nreps : Int)
  | some (.jint n) => thresholdBounds nreps n
  | some (.jbool b) => thresholdBounds nreps (if b then 1 else 0)
  | some v => .error (.invalidThreshold v)

/-- Validation of one mapping entry (map.py lines 77-149), in source order:
object check, paths, repository references, terminating, threshold. -/
def validateEntry (keys : List String) : JVal → Except LoadErr Mapping
  | .jobj entry =>
    match checkPaths entry with
    | .error e => .error e
    | .ok ps =>
      match checkRepoRefs keys entry with
      | .error e => .error e
      | .ok rs =>
        match checkTerminating entry with
        | .error e => .error e
        | .ok t =>
          match checkThreshold rs.length entry with
          | .error e => .error e
          | .ok th => .ok ⟨ps, rs, t, th⟩
  | v => .error (.mappingEntryNotObject v)

/-- The loop over mapping entries (map.py lines 77-149), failing at the
first invalid entry. -/
def checkEntries (keys : List String) : List JVal → Except LoadErr (List Mapping)
  | [] => .ok []
  | v :: rest =>
    match validateEntry keys v with
    | .error e => .error e
    | .ok m =>
      match checkEntries keys rest with
      | .error e => .error e
      | .ok ms => .ok (m :: ms)

/-- The part of `Map.__init__` after the repositories object has been
obtained (map.py lines 44-153): validate the repositories, then fetch and
validate the mapping list.  Reference keys are the top-level repository
names in declaration order. -/
def loadBody (top : List (String × JVal)) (reposRaw : List (String × JVal)) :
    Except LoadErr Map :=
  match checkRepos reposRaw with
  | .error e => .error e
  | .ok rs =>
    match jget top "mapping" with
    | none => .error .missingMapping
    | some mv =>
      if pyFalsy mv then .error .missingMapping
      else
        match mv with
        | .jarr entries =>
          match checkEntries (reposRaw.map Prod.fst) entries with
          | .error e => .error e
          | .ok ms => .ok ⟨rs, ms⟩
        | _ => .error (.mappingNotList mv)

/-- `Map.__init__` on an already-parsed document (map.py lines 29-153).
A non-object document fails at `_map.get` with an AttributeError; a truthy
non-object repositories value fails at `repositories.items()` with an
AttributeError (there is no isinstance check between lines 38 and 45);
a missing or falsy repositories value raises the missing-key error. -/
def loadMap (doc : JVal) : Except PyFailure Map :=
  match doc with
  | .jobj top =>
    match jget top "repositories" with
    | none => .error (.config .missingRepositories)
    | some v =>
      if pyFalsy v then .error (.config .missingRepositories)
      else
        match v with
        | .jobj reposRaw =>
          match loadBody top reposRaw with
          | .ok mf => .ok mf
          | .error e => .error (.config e)
        | _ => .error (.attributeError "items")
  | _ => .error (.attributeError "get")

/-! ## The glob matcher (`fnmatch.fnmatchcase`)

`Map.resolve` tests project names with `fnmatch.fnmatchcase(project_name,
path)` (map.py line 162).  `fnmatch.translate` compiles the pattern to a
regex: `*` becomes `.*`, `?` becomes a single-character wildcard, a
bracket expression `[...]` becomes a character set (leading `!` negates,
a `]` directly after `[` or `[!` is a literal member, `a-b` is a
codepoint range, an unclosed `[` is literal), and every other character
is escaped to a literal.  The model tokenizes the pattern the same way
and matches with the standard semantics of the produced regex. -/

/-- One token of a translated fnmatch pattern. -/
inductive GTok where
  | star
  | qmark
  | set (neg : Bool) (body : List Char)
  | lit (c : Char)

/-- Scan for the closing `]` of a bracket expression, returning the body
before it and the remainder after it. -/
def findClose : List Char → Option (List Char × List Char)
  | [] => none
  | ']' :: rest => some ([], rest)
  | c :: rest =>
    match findClose rest with
    | none => none
    | some (body, r) => some (c :: body, r)

/-- Delimit a bracket expression, mirroring `fnmatch.translate`: a leading
`!` and a literal `]` directly after it are inside the body, then the
first `]` closes the set; with no closing `]` the `[` is literal. -/
def bracketSpan (s : List Char) : Option (List Char × List Char) :=
  match s with
  | '!' :: ']' :: s3 =>
    match findClose s3 with
    | none => none
    | some (body, r) => some ('!' :: ']' :: body, r)
  | '!' :: s2 =>
    match findClose s2 with
    | none => none
    | some (body, r) => some ('!' :: body, r)
  | ']' :: s3 =>
    match findClose s3 with
    | none => none
    | some (body, r) => some (']' :: body, r)
  | _ => findClose s

/-- Membership of a character in a bracket-expression body: `a-b` (with a
successor) is a codepoint range, other characters are literal members, a
trailing `-` is literal. -/
def memberList : List Char → Char → Bool
  | [], _ => false
  | a :: '-' :: b :: rest, c =>
    ((a ≤ c && c ≤ b) : Bool) || memberList rest c
  | a :: rest, c => (a == c) || memberList rest c

/-- Tokenize an fnmatch pattern; the fuel argument bounds the recursion
and any fuel of at least the pattern length yields the full result. -/
def tokenizeF : Nat → List Char → List GTok
  | 0, _ => []
  | _ + 1, [] => []
  | fuel + 1, c :: ps =>
    if c = '*' then GTok.star :: tokenizeF fuel ps
    else if c = '?' then GTok.qmark :: tokenizeF fuel ps
    else if c = '[' then
      match bracketSpan ps with
      | some (body, rest) =>
        (match body with
         | '!' :: b => GTok.set true b
         | _ => GTok.set false body) :: tokenizeF fuel rest
      | none => GTok.lit '[' :: tokenizeF fuel ps
    else GTok.lit c :: tokenizeF fuel ps

/-- Tokenize a full fnmatch pattern. -/
def tokenize (p : List Char) : List GTok :=
  tokenizeF p.length p

/-- All suffixes of a character list, longest first, ending with `[]`. -/
def suffixes : List Char → List (List Char)
  | [] => [[]]
  | c :: cs => (c :: cs) :: suffixes cs

/-- Match a token list against a character list with the semantics of the
regex `fnmatch.translate` produces: `star` consumes any run (the match
succeeds if the remainder matches any suffix), `qmark` consumes exactly
one character, a set consumes one member character (negated sets one
non-member), a literal consumes exactly itself, and the whole string must
be consumed (`\Z`). -/
def gmatchT : List GTok → List Char → Bool
  | [], s => s.isEmpty
  | .star :: ts, s => (suffixes s).any (fun t => gmatchT ts t)
  | .qmark :: ts, s =>
    match s with
    | [] => false
    | _ :: cs => gmatchT ts cs
  | .set neg body :: ts, s =>
    match s with
    | [] => false
    | c :: cs => (neg != memberList body c) && gmatchT ts cs
  | .lit c :: ts, s =>
    match s with
    | [] => false
    | d :: cs => (c == d) && gmatchT ts cs

/-- `fnmatch.fnmatchcase(name, pat)`: case-sensitive glob match with no
normalization (map.py line 162). -/
def fnmatchcase (name pat : String) : Bool :=
  gmatchT (tokenize pat.data) name.data

/-- The path-testing loop of `Map.resolve` (map.py lines 158-165): paths
are tried in declared order and the loop breaks at the first match. -/
def pathsMatch (name : String) : List String → Bool
  | [] => false
  | p :: rest => if fnmatchcase name p then true else pathsMatch name rest

/-- Terminal outcome of a full run of the `resolve` generator: normal
exhaustion, the `NotImplementedError` for a matching rule with threshold
above 1 (map.py lines 174-177), or a `KeyError` from the repository
lookup `self.__repositories[repository]` (line 185). -/
inductive ROutcome where
  | done
  | notSupported
  | keyError (name : String)
  deriving DecidableEq

/-- The emission loop for one matching rule (map.py lines 184-188): for
each repository in rule order, look the name up in the repositories dict
and yield a singleton group `[index]` per URL; a failed lookup aborts the
run at that repository, keeping the groups already yielded. -/
def emitGroups (repos : List (String × List String)) :
    List String → List (List String) × Option String
  | [] => ([], none)
  | r :: rs =>
    match alookup repos r with
    | none => ([], some r)
    | some urls =>
      (urls.map (fun u => [u]) ++ (emitGroups repos rs).1, (emitGroups repos rs).2)

/-- The full run of the `resolve` generator (map.py lines 155-197) over a
mapping list: skip non-matching rules; a matching rule with threshold
above 1 raises `NotImplementedError`; otherwise its groups are yielded
and, when it is terminating, the loop breaks.  The final `yield []` at
line 197 is outside the loop with no `else` clause, so the empty sentinel
group is appended after normal loop exit AND after a terminating break;
only an exception run omits it. -/
def resolveFrom (repos : List (String × List String)) (name : String) :
    List Mapping → List (List String) × ROutcome
  | [] => ([[]], ROutcome.done)
  | m :: rest =>
    if pathsMatch name m.paths then
      if m.threshold > 1 then ([], ROutcome.notSupported)
      else
        match (emitGroups repos m.repositories).2 with
        | some r => ((emitGroups repos m.repositories).1, ROutcome.keyError r)
        | none =>
          if m.terminating then
            ((emitGroups repos m.repositories).1 ++ [[]], ROutcome.done)
          else
            ((emitGroups repos m.repositories).1 ++ (resolveFrom repos name rest).1,
             (resolveFrom repos name rest).2)
    else resolveFrom repos name rest

/-- `Map.resolve(project_name)` (map.py lines 155-197), as the trace of
yielded index-groups paired with the terminal outcome of consuming the
whole generator. -/
def Map.resolve (m : Map) (projectName : String) : List (List String) × ROutcome :=
  resolveFrom m.repositories projectName m.mappings

/-- The groups a successful emission pass yields for a reference list:
for each repository in rule order, one singleton group per URL in
declared URL order. -/
def groupsOf (repos : List (String × List String)) : List String → List (List String)
  | [] => []
  | r :: rs => ((alookup repos r).getD []).map (fun u => [u]) ++ groupsOf repos rs

/-- The groups contributed by the matching rules of a rule-list prefix. -/
def matchedGroups (repos : List (String × List String)) (name : String) :
    List Mapping → List (List String)
  | [] => []
  | m :: ms =>
    (if pathsMatch name m.paths then groupsOf repos m.repositories else []) ++
      matchedGroups repos name ms

/-- Modelled from the spec's words (step 1 of the resolution algorithm):
shell-style matching in which `*` matches any run of characters and every
other, literal, character matches exactly itself.  Stated over character
lists for comparison with the source-side matcher. -/
def specLitGlobMatch : List Char → List Char → Bool
  | [], s => s.isEmpty
  | c :: ps, s =>
    if c = '*' then (suffixes s).any (fun t => specLitGlobMatch ps t)
    else
      match s with
      | [] => false
      | d :: cs => (c == d) && specLitGlobMatch ps cs

/-- A value is a JSON object. -/
def isJObj : JVal → Bool
  | .jobj _ => true
  | _ => false

/-- The documents on which `Map.__init__` reaches an attribute access on a
value of the wrong type: a non-object top level (line 37 calls `.get` on
it), or a truthy non-object repositories value (line 45 calls `.items` on
it). -/
def attrHazard : JVal → Bool
  | .jobj top =>
    match jget top "repositories" with
    | some v => !pyFalsy v && !isJObj v
    | none => false
  | _ => true

/-- The load result is a typed outcome: a validated map or the
`MapFileCouldNotBeLoaded` error, not an escaping `AttributeError`. -/
def isTyped : Except PyFailure Map → Bool
  | .ok _ => true
  | .error (.config _) => true
  | .error (.attributeError _) => false

/-! ## Supporting lemmas -/

theorem alookup_isSome {α : Type} (l : List (String × α)) (r : String)
    (h : r ∈ l.map Prod.fst) : (alookup l r).isSome := by
  induction l with
  | nil => simp at h
  | cons kv rest ih =>
    obtain ⟨k, v⟩ := kv
    simp only [List.map_cons, List.mem_cons] at h
    simp only [alookup]
    by_cases hk : k = r
    · simp [hk]
    · simp only [hk, if_false]
      apply ih
      cases h with
      | inl h => exact absurd h.symm hk
      | inr h => exact h

theorem emitGroups_eq (repos : List (String × List String)) :
    ∀ refs : List String, (∀ r ∈ refs, (alookup repos r).isSome) →
    emitGroups repos refs = (groupsOf repos refs, none) := by
  intro refs
  induction refs with
  | nil => intro _; rfl
  | cons r rs ih =>
    intro h
    obtain ⟨urls, hu⟩ := Option.isSome_iff_exists.mp (h r (by simp))
    have hrest := ih (fun x hx => h x (by simp [hx]))
    simp only [emitGroups, groupsOf, hu, hrest]
    simp

theorem resolveFrom_outcome (repos : List (String × List String)) (name : String) :
    ∀ ms : List Mapping,
    (∀ m ∈ ms, ∀ r ∈ m.repositories, (alookup repos r).isSome) →
    (resolveFrom repos name ms).2 = .done ∨ (resolveFrom repos name ms).2 = .notSupported := by
  intro ms
  induction ms with
  | nil => intro _; left; rfl
  | cons m rest ih =>
    intro h
    have hm := h m (by simp)
    have hrest := ih (fun x hx => h x (by simp [hx]))
    simp only [resolveFrom]
    by_cases hp : pathsMatch name m.paths
    · simp only [hp, if_true]
      by_cases ht : m.threshold > 1
      · simp [ht]
      · rw [if_neg ht, emitGroups_eq repos m.repositories hm]
        by_cases hterm : m.terminating
        · simp [hterm]
        · simpa [hterm] using hrest
    · simpa [hp] using hrest

theorem checkUrlList_ok (name : String) : ∀ (items : List JVal) (us : List String),
    checkUrlList name items = .ok us → ∀ u ∈ us, reHttpsMatch u = true := by
  intro items
  induction items with
  | nil =>
    intro us h u hu
    simp only [checkUrlList, Except.ok.injEq] at h
    subst h; simp at hu
  | cons v rest ih =>
    intro us h u hu
    cases v <;> simp only [checkUrlList] at h <;> try simp at h
    case jstr s =>
      by_cases hs : reHttpsMatch s = true
      · rw [if_pos hs] at h
        cases hr : checkUrlList name rest with
        | error e => rw [hr] at h; simp at h
        | ok us' =>
          rw [hr] at h
          simp only [Except.ok.injEq] at h
          subst h
          cases hu with
          | head => exact hs
          | tail _ hu => exact ih us' hr u hu
      · rw [if_neg hs] at h; simp at h

theorem checkRepos_urls : ∀ (raw : List (String × JVal)) (rs : List (String × List String)),
    checkRepos raw = .ok rs → ∀ pr ∈ rs, ∀ u ∈ pr.2, reHttpsMatch u = true := by
  intro raw
  induction raw with
  | nil =>
    intro rs h pr hpr u hu
    simp only [checkRepos, Except.ok.injEq] at h
    subst h; simp at hpr
  | cons kv rest ih =>
    intro rs h pr hpr u hu
    obtain ⟨name, v⟩ := kv
    cases v <;> simp only [checkRepos] at h <;> try simp at h
    case jarr us =>
      cases h1 : checkUrlList name us with
      | error e => rw [h1] at h; simp at h
      | ok urls =>
        rw [h1] at h
        cases h2 : checkRepos rest with
        | error e => rw [h2] at h; simp at h
        | ok tail =>
          rw [h2] at h
          simp only [Except.ok.injEq] at h
          subst h
          cases hpr with
          | head => exact checkUrlList_ok name us urls h1 u hu
          | tail _ hpr => exact ih tail h2 pr hpr u hu

theorem checkRepos_keys : ∀ (raw : List (String × JVal)) (rs : List (String × List String)),
    checkRepos raw = .ok rs → rs.map Prod.fst = raw.map Prod.fst := by
  intro raw
  induction raw with
  | nil =>
    intro rs h
    simp only [checkRepos, Except.ok.injEq] at h
    subst h; rfl
  | cons kv rest ih =>
    intro rs h
    obtain ⟨name, v⟩ := kv
    cases v <;> simp only [checkRepos] at h <;> try simp at h
    case jarr us =>
      cases h1 : checkUrlList name us with
      | error e => rw [h1] at h; simp at h
      | ok urls =>
        rw [h1] at h
        cases h2 : checkRepos rest with
        | error e => rw [h2] at h; simp at h
        | ok tail =>
          rw [h2] at h
          simp only [Except.ok.injEq] at h
          subst h
          simp [ih tail h2]

theorem checkPathItems_ok : ∀ (items : List JVal) (ps : List String),
    checkPathItems items = .ok ps → ∀ p ∈ ps, rePathMatch p = true := by
  intro items
  induction items with
  | nil =>
    intro ps h p hp
    simp only [checkPathItems, Except.ok.injEq] at h
    subst h; simp at hp
  | cons v rest ih =>
    intro ps h p hp
    cases v <;> simp only [checkPathItems] at h <;> try simp at h
    case jstr s =>
      by_cases hs : rePathMatch s = true
      · rw [if_pos hs] at h
        cases hr : checkPathItems rest with
        | error e => rw [hr] at h; simp at h
        | ok ps' =>
          rw [hr] at h
          simp only [Except.ok.injEq] at h
          subst h
          cases hp with
          | head => exact hs
          | tail _ hp => exact ih ps' hr p hp
      · rw [if_neg hs] at h; simp at h

theorem checkPaths_ok (entry : List (String × JVal)) (ps : List String)
    (h : checkPaths entry = .ok ps) : ∀ p ∈ ps, rePathMatch p = true := by
  unfold checkPaths at h
  cases hg : jget entry "paths" with
  | none => rw [hg] at h; simp at h
  | some v =>
    rw [hg] at h
    cases v <;> try simp at h
    case jarr items =>
      cases h1 : checkPathItems items with
      | error e => rw [h1] at h; simp at h
      | ok ps' =>
        rw [h1] at h
        dsimp only at h
        by_cases hd : ps'.length < distinctCount ps'
        · rw [if_pos hd] at h; simp at h
        · rw [if_neg hd] at h
          simp only [Except.ok.injEq] at h
          subst h
          exact checkPathItems_ok items _ h1

theorem checkRefItems_ok (keys : List String) : ∀ (items : List JVal) (rs : List String),
    checkRefItems keys items = .ok rs → ∀ r ∈ rs, r ∈ keys := by
  intro items
  induction items with
  | nil =>
    intro rs h r hr
    simp only [checkRefItems, Except.ok.injEq] at h
    subst h; simp at hr
  | cons v rest ih =>
    intro rs h r hr
    cases v <;> simp only [checkRefItems] at h <;> try simp at h
    case jstr s =>
      by_cases hs : s ∈ keys
      · rw [if_pos hs] at h
        cases h1 : checkRefItems keys rest with
        | error e => rw [h1] at h; simp at h
        | ok rs' =>
          rw [h1] at h
          simp only [Except.ok.injEq] at h
          subst h
          cases hr with
          | head => exact hs
          | tail _ hr => exact ih rs' h1 r hr
      · rw [if_neg hs] at h; simp at h

theorem checkRepoRefs_ok (keys : List String) (entry : List (String × JVal))
    (rs : List String) (h : checkRepoRefs keys entry = .ok rs) :
    ∀ r ∈ rs, r ∈ keys := by
  unfold checkRepoRefs at h
  cases hg : jget entry "repositories" with
  | none => rw [hg] at h; simp at h
  | some v =>
    rw [hg] at h
    cases v <;> try simp at h
    case jarr items =>
      cases h1 : checkRefItems keys items with
      | error e => rw [h1] at h; simp at h
      | ok rs' =>
        rw [h1] at h
        dsimp only at h
        by_cases hd : rs'.length < distinctCount rs'
        · rw [if_pos hd] at h; simp at h
        · rw [if_neg hd] at h
          simp only [Except.ok.injEq] at h
          subst h
          exact checkRefItems_ok keys items _ h1

theorem validateEntry_ok (keys : List String) (v : JVal) (m : Mapping)
    (h : validateEntry keys v = .ok m) :
    (∀ p ∈ m.paths, rePathMatch p = true) ∧ (∀ r ∈ m.repositories, r ∈ keys) := by
  cases v <;> simp only [validateEntry] at h <;> try simp at h
  case jobj entry =>
    cases h1 : checkPaths entry with
    | error e => rw [h1] at h; simp at h
    | ok ps =>
      rw [h1] at h
      dsimp only at h
      cases h2 : checkRepoRefs keys entry with
      | error e => rw [h2] at h; simp at h
      | ok rs =>
        rw [h2] at h
        dsimp only at h
        cases h3 : checkTerminating entry with
        | error e => rw [h3] at h; simp at h
        | ok t =>
          rw [h3] at h
          dsimp only at h
          cases h4 : checkThreshold rs.length entry with
          | error e => rw [h4] at h; simp at h
          | ok th =>
            rw [h4] at h
            dsimp only at h
            simp only [Except.ok.injEq] at h
            subst h
            exact ⟨checkPaths_ok entry ps h1, checkRepoRefs_ok keys entry rs h2⟩

theorem checkEntries_ok (keys : List String) : ∀ (items : List JVal) (ms : List Mapping),
    checkEntries keys items = .ok ms →
    ∀ m ∈ ms, (∀ p ∈ m.paths, rePathMatch p = true) ∧ (∀ r ∈ m.repositories, r ∈ keys) := by
  intro items
  induction items with
  | nil =>
    intro ms h m hm
    simp only [checkEntries, Except.ok.injEq] at h
    subst h; simp at hm
  | cons v rest ih =>
    intro ms h m hm
    simp only [checkEntries] at h
    cases h1 : validateEntry keys v with
    | error e => rw [h1] at h; simp at h
    | ok m' =>
      rw [h1] at h
      cases h2 : checkEntries keys rest with
      | error e => rw [h2] at h; simp at h
      | ok ms' =>
        rw [h2] at h
        simp only [Except.ok.injEq] at h
        subst h
        cases hm with
        | head => exact validateEntry_ok keys v m h1
        | tail _ hm => exact ih ms' h2 m hm

theorem loadBody_ok_inv (top reposRaw : List (String × JVal)) (mf : Map)
    (h : loadBody top reposRaw = .ok mf) :
    checkRepos reposRaw = .ok mf.repositories ∧
      ∃ entries, checkEntries (reposRaw.map Prod.fst) entries = .ok mf.mappings := by
  unfold loadBody at h
  cases hr : checkRepos reposRaw with
  | error e => rw [hr] at h; simp at h
  | ok rs =>
    rw [hr] at h
    dsimp only at h
    cases hg : jget top "mapping" with
    | none => rw [hg] at h; simp at h
    | some mv =>
      rw [hg] at h
      dsimp only at h
      by_cases hf : pyFalsy mv = true
      · rw [if_pos hf] at h; simp at h
      · rw [if_neg hf] at h
        cases mv <;> try simp at h
        next entries =>
          cases he : checkEntries (reposRaw.map Prod.fst) entries with
          | error e => rw [he] at h; simp at h
          | ok ms =>
            rw [he] at h
            dsimp only at h
            simp only [Except.ok.injEq] at h
            subst h
            exact ⟨rfl, entries, he⟩

theorem loadMap_ok_inv (doc : JVal) (mf : Map) (h : loadMap doc = .ok mf) :
    ∃ reposRaw entries,
      checkRepos reposRaw = .ok mf.repositories ∧
        checkEntries (reposRaw.map Prod.fst) entries = .ok mf.mappings := by
  cases doc <;> simp only [loadMap] at h <;> try simp at h
  case jobj top =>
    cases hg : jget top "repositories" with
    | none => rw [hg] at h; simp at h
    | some v =>
      rw [hg] at h
      dsimp only at h
      by_cases hf : pyFalsy v = true
      · rw [if_pos hf] at h; simp at h
      · rw [if_neg hf] at h
        cases v <;> try simp at h
        next reposRaw =>
          cases hb : loadBody top reposRaw with
          | error e => rw [hb] at h; simp at h
          | ok mf' =>
            rw [hb] at h
            simp only [Except.ok.injEq] at h
            subst h
            obtain ⟨h1, entries, h2⟩ := loadBody_ok_inv top reposRaw mf' hb
            exact ⟨reposRaw, entries, h1, h2⟩

theorem rePathMatch_ok (p : String) (h : rePathMatch p = true) :
    ∃ c cs, p.data = c :: cs ∧ pathChar c = true := by
  unfold rePathMatch at h
  cases hd : p.data with
  | nil => rw [hd] at h; simp at h
  | cons c cs =>
    rw [hd] at h
    exact ⟨c, cs, rfl, h⟩

theorem reHttpsMatch_ok (u : String) (h : reHttpsMatch u = true) :
    u.data.take 8 = "https://".data ∧ u ≠ "" := by
  unfold reHttpsMatch at h
  rw [Bool.and_eq_true] at h
  obtain ⟨h1, _⟩ := h
  have h1' : u.data.take 8 = "https://".data := by
    exact beq_iff_eq.mp h1
  refine ⟨h1', ?_⟩
  intro he
  rw [he] at h1'
  exact absurd h1' (by decide)

theorem tokenizeF_no_special : ∀ (n : Nat) (p : List Char), p.length ≤ n →
    '?' ∉ p → '[' ∉ p →
    tokenizeF n p = p.map (fun c => if c = '*' then GTok.star else GTok.lit c) := by
  intro n
  induction n with
  | zero =>
    intro p hp _ _
    cases p with
    | nil => rfl
    | cons c ps => simp at hp
  | succ n ih =>
    intro p hp hq hb
    cases p with
    | nil => rfl
    | cons c ps =>
      have hq' : '?' ∉ ps := fun hx => hq (by simp [hx])
      have hb' : '[' ∉ ps := fun hx => hb (by simp [hx])
      have hc1 : ¬ (c = '?') := fun hx => hq (by simp [hx])
      have hc2 : ¬ (c = '[') := fun hx => hb (by simp [hx])
      have hlen : ps.length ≤ n := by simpa using hp
      by_cases hstar : c = '*'
      · subst hstar
        simp only [tokenizeF, if_pos rfl, List.map_cons, if_true]
        rw [ih ps hlen hq' hb']
      · simp only [tokenizeF, if_neg hstar, if_neg hc1, if_neg hc2, List.map_cons]
        rw [ih ps hlen hq' hb']

theorem tokenize_no_special (p : List Char) (hq : '?' ∉ p) (hb : '[' ∉ p) :
    tokenize p = p.map (fun c => if c = '*' then GTok.star else GTok.lit c) :=
  tokenizeF_no_special p.length p le_rfl hq hb

theorem gmatchT_map_eq : ∀ (p : List Char), '?' ∉ p → '[' ∉ p →
    ∀ s, gmatchT (p.map (fun c => if c = '*' then GTok.star else GTok.lit c)) s
       = specLitGlobMatch p s := by
  intro p
  induction p with
  | nil => intro _ _ s; rfl
  | cons c ps ih =>
    intro hq hb s
    have hq' : '?' ∉ ps := fun hx => hq (by simp [hx])
    have hb' : '[' ∉ ps := fun hx => hb (by simp [hx])
    by_cases hstar : c = '*'
    · subst hstar
      simp only [List.map_cons, if_pos rfl, gmatchT, specLitGlobMatch, if_true]
      simp only [ih hq' hb']
    · simp only [List.map_cons, if_neg hstar, gmatchT, specLitGlobMatch]
      cases s with
      | nil => rfl
      | cons d cs =>
        dsimp only
        rw [ih hq' hb']

theorem fnmatchcase_lit (name p : String) (hq : '?' ∉ p.data) (hb : '[' ∉ p.data) :
    fnmatchcase name p = specLitGlobMatch p.data name.data := by
  unfold fnmatchcase
  rw [tokenize_no_special p.data hq hb, gmatchT_map_eq p.data hq hb]

theorem pathsMatch_eq_any (name : String) : ∀ paths : List String,
    pathsMatch name paths = paths.any (fun p => fnmatchcase name p) := by
  intro paths
  induction paths with
  | nil => rfl
  | cons p rest ih =>
    simp only [pathsMatch, List.any_cons]
    by_cases h : fnmatchcase name p <;> simp [h, ih]

/-! ## Concrete documents used by the claim theorems -/

/-- A minimal valid document: one repository, one catch-all terminating
rule with defaulted `terminating` and `threshold`. -/
def docOk : JVal := .jobj [
  ("repositories", .jobj [("r", .jarr [.jstr "https://one.example/"])]),
  ("mapping", .jarr [.jobj [("paths", .jarr [.jstr "*"]),
                            ("repositories", .jarr [.jstr "r"])]])]

/-- The map `docOk` loads to. -/
def mfOk : Map := ⟨[("r", ["https://one.example/"])], [⟨["*"], ["r"], true, 1⟩]⟩

/-- A valid document whose single terminating rule matches only
`acme-*`. -/
def docC1 : JVal := .jobj [
  ("repositories", .jobj [("r", .jarr [.jstr "https://one.example/"])]),
  ("mapping", .jarr [.jobj [("paths", .jarr [.jstr "acme-*"]),
                            ("repositories", .jarr [.jstr "r"])]])]

/-- The map `docC1` loads to. -/
def mfC1 : Map := ⟨[("r", ["https://one.example/"])], [⟨["acme-*"], ["r"], true, 1⟩]⟩

/-- A map whose single repository declares two URLs. -/
def mfC2 : Map := ⟨[("a", ["https://a1/", "https://a2/"])], [⟨["*"], ["a"], true, 1⟩]⟩

/-- A document whose single mapping entry repeats a path and a repository
reference. -/
def docC3 : JVal := .jobj [
  ("repositories", .jobj [("r", .jarr [.jstr "https://one.example/"])]),
  ("mapping", .jarr [.jobj [("paths", .jarr [.jstr "a", .jstr "a"]),
                            ("repositories", .jarr [.jstr "r", .jstr "r"]),
                            ("threshold", .jint 1)]])]

/-- The map `docC3` loads to, duplicates intact. -/
def mfC3 : Map := ⟨[("r", ["https://one.example/"])], [⟨["a", "a"], ["r", "r"], true, 1⟩]⟩

/-- A document whose single path contains a space and an exclamation mark
after a leading word character. -/
def docC4 : JVal := .jobj [
  ("repositories", .jobj [("r", .jarr [.jstr "https://one.example/"])]),
  ("mapping", .jarr [.jobj [("paths", .jarr [.jstr "a b!"]),
                            ("repositories", .jarr [.jstr "r"])]])]

/-- The map `docC4` loads to. -/
def mfC4 : Map := ⟨[("r", ["https://one.example/"])], [⟨["a b!"], ["r"], true, 1⟩]⟩

/-- A document declaring a repository with an empty URL list next to a
valid one. -/
def docC6 : JVal := .jobj [
  ("repositories", .jobj [("empty", .jarr []),
                          ("r", .jarr [.jstr "https://one.example/"])]),
  ("mapping", .jarr [.jobj [("paths", .jarr [.jstr "*"]),
                            ("repositories", .jarr [.jstr "r"])]])]

/-- The map `docC6` loads to: the repository `empty` maps to `[]`. -/
def mfC6 : Map := ⟨[("empty", []), ("r", ["https://one.example/"])], [⟨["*"], ["r"], true, 1⟩]⟩

/-! ## Claim theorems -/

/-- C1: the claim says the empty sentinel group appears exactly when the
rule list is exhausted without a terminating match, and in particular
that no sentinel follows a terminating match.  The code violates the
second half: `yield []` at map.py line 197 sits after the `for` loop with
no `else` clause, so the `break` of a terminating match still falls
through to it, contradicting the code's own `# Found nothing.` comment.
With the loaded `mfC1`, the matching name gets the rule's group AND a
trailing empty group; the no-match half (exactly one empty group) does
hold. -/
theorem c1_sentinel_follows_terminating_match :
    loadMap docC1 = .ok mfC1 ∧
      Map.resolve mfC1 "acme-widget" = ([["https://one.example/"], []], ROutcome.done) ∧
      Map.resolve mfC1 "other" = ([[]], ROutcome.done) :=
  ⟨rfl, rfl, rfl⟩

/-- C2 counterexample: the claim says a matching threshold-1 rule emits
one index-group per repository, equal to that repository's entire URL
list.  The code instead yields `[index]` per URL (map.py lines 186-188):
with repository `a` declaring two URLs, the trace holds two singleton
groups and never the two-element list the claim predicts. -/
theorem c2_counterexample :
    (Map.resolve mfC2 "p").1 = [["https://a1/"], ["https://a2/"], []] ∧
      ["https://a1/", "https://a2/"] ∉ (Map.resolve mfC2 "p").1 :=
  ⟨rfl, by decide⟩

/-- C2 (amended): for a matching rule with threshold 1 whose references
all resolve, the code emits, for each repository in declared order and
each of its URLs in declared order, one singleton index-group holding
just that URL — not one group per repository. -/
theorem c2_singleton_groups (repos : List (String × List String)) (name : String)
    (m : Mapping) (rest : List Mapping)
    (h1 : pathsMatch name m.paths = true) (h2 : m.threshold = 1)
    (h3 : ∀ r ∈ m.repositories, (alookup repos r).isSome) :
    (resolveFrom repos name (m :: rest)).1 =
      groupsOf repos m.repositories ++
        (if m.terminating then [[]] else (resolveFrom repos name rest).1) := by
  have hth : ¬ (m.threshold > 1) := by rw [h2]; decide
  simp only [resolveFrom, h1, if_true]
  rw [if_neg hth, emitGroups_eq repos m.repositories h3]
  by_cases hterm : m.terminating <;> simp [hterm]

/-- C2 witness: the amended theorem applied to the two-URL repository. -/
theorem c2_singleton_groups_witness :
    (resolveFrom [("a", ["https://a1/", "https://a2/"])] "p"
        ((⟨["*"], ["a"], true, 1⟩ : Mapping) :: [])).1 =
      groupsOf [("a", ["https://a1/", "https://a2/"])] ["a"] ++ [[]] := by
  have h := c2_singleton_groups [("a", ["https://a1/", "https://a2/"])] "p"
      ⟨["*"], ["a"], true, 1⟩ [] (by decide) rfl (by decide)
  simpa using h

/-- C3: the claim says duplicate paths and duplicate repository
references make the load fail.  Both uniqueness checks compare
`len(l) < len(set(l))` (map.py lines 101 and 122), which is never true
since a set is at most as large as its list, so the checks are dead code
and the duplicates load successfully, contradicting the adjacent
`must be unique` comments in the source. -/
theorem c3_duplicates_accepted :
    loadMap docC3 = .ok mfC3 ∧
      mfC3.mappings.map Mapping.paths = [["a", "a"]] ∧
      mfC3.mappings.map Mapping.repositories = [["r", "r"]] :=
  ⟨rfl, rfl, rfl⟩

/-- C4 counterexample: the claim says load fails with `InvalidPath` when
a path contains any character outside `[\w/*]`.  The source check
`re.match(r"[\w/\*]+", path)` is anchored only at the start, so the path
`a b!`, whose space and `!` are outside the class, still loads. -/
theorem c4_counterexample :
    loadMap docC4 = .ok mfC4 ∧ ("a b!".data.all pathChar) = false :=
  ⟨rfl, rfl⟩

/-- C4 (amended): the unanchored match constrains only a prefix, so in
every successfully loaded map each rule path is a non-empty string whose
FIRST character is a word character, `/` or `*`; later characters are
unconstrained. -/
theorem c4_loaded_path_first_char (doc : JVal) (mf : Map) (h : loadMap doc = .ok mf)
    (m : Mapping) (hm : m ∈ mf.mappings) (p : String) (hp : p ∈ m.paths) :
    ∃ c cs, p.data = c :: cs ∧ pathChar c = true := by
  obtain ⟨reposRaw, entries, _, hentries⟩ := loadMap_ok_inv doc mf h
  exact rePathMatch_ok p
    ((checkEntries_ok (reposRaw.map Prod.fst) entries mf.mappings hentries m hm).1 p hp)

/-- C4 witness: the amended theorem applied to the loaded `docOk`. -/
theorem c4_loaded_path_first_char_witness :
    ∃ c cs, "*".data = c :: cs ∧ pathChar c = true :=
  c4_loaded_path_first_char docOk mfOk rfl ⟨["*"], ["r"], true, 1⟩ (by decide)
    "*" (by decide)

/-- C5: a matching rule with threshold above 1 makes the sequence fail
with `NotSupported` exactly where that rule's groups would have been
emitted (map.py lines 174-177): every group of the earlier matching
non-terminating rules is in the trace before the failure, and no group
of the multi-threshold rule or of any later rule appears.  The generator
is modelled by its full emission trace, so the lazy surfacing of the
failure is expressed by its position in the trace. -/
theorem c5_quorum_gap (repos : List (String × List String)) (name : String)
    (pre post : List Mapping) (m : Mapping)
    (hm : pathsMatch name m.paths = true) (ht : m.threshold > 1)
    (hpre : ∀ r ∈ pre, pathsMatch name r.paths = true →
      r.threshold ≤ 1 ∧ r.terminating = false ∧
        ∀ s ∈ r.repositories, (alookup repos s).isSome) :
    resolveFrom repos name (pre ++ m :: post) =
      (matchedGroups repos name pre, ROutcome.notSupported) := by
  induction pre with
  | nil =>
    simp only [List.nil_append, resolveFrom, matchedGroups, hm, if_true]
    rw [if_pos ht]
  | cons r pre' ih =>
    have ihh := ih (fun x hx => hpre x (List.mem_cons_of_mem r hx))
    simp only [List.cons_append, resolveFrom, matchedGroups]
    cases hp : pathsMatch name r.paths with
    | false => simp [hp, ihh]
    | true =>
      obtain ⟨ht1, hterm, hsome⟩ := hpre r (List.mem_cons_self r pre') hp
      have hth : ¬ (r.threshold > 1) := by omega
      simp only [hp, if_true]
      rw [if_neg hth, emitGroups_eq repos r.repositories hsome]
      dsimp only
      simp only [hterm, Bool.false_eq_true, if_false, List.append_eq]
      rw [ihh]

/-- C5 witness: an earlier matching non-terminating rule's group precedes
the failure of the threshold-2 rule. -/
theorem c5_quorum_gap_witness :
    resolveFrom [("a", ["https://a1/"]), ("b", ["https://b1/"])] "p"
        ([⟨["*"], ["a"], false, 1⟩] ++ (⟨["*"], ["a", "b"], true, 2⟩ : Mapping) :: []) =
      (matchedGroups [("a", ["https://a1/"]), ("b", ["https://b1/"])] "p"
        [⟨["*"], ["a"], false, 1⟩], ROutcome.notSupported) :=
  c5_quorum_gap [("a", ["https://a1/"]), ("b", ["https://b1/"])] "p"
    [⟨["*"], ["a"], false, 1⟩] [] ⟨["*"], ["a", "b"], true, 2⟩
    (by decide) (by decide) (by decide)

/-- C6 counterexample: the claim says every repository of a loaded map
has a non-empty URL list.  The source only checks
`isinstance(urls, List)` and then validates each member (map.py lines
44-58), so an empty list passes vacuously: `docC6` loads with repository
`empty` mapped to `[]`. -/
theorem c6_counterexample :
    loadMap docC6 = .ok mfC6 ∧ alookup mfC6.repositories "empty" = some [] :=
  ⟨rfl, rfl⟩

/-- C6 (amended): in every loaded map each URL of each repository is a
non-empty string that begins with `https://`; a repository may, however,
map to an empty URL list. -/
theorem c6_url_invariant (doc : JVal) (mf : Map) (h : loadMap doc = .ok mf)
    (pr : String × List String) (hpr : pr ∈ mf.repositories) (u : String) (hu : u ∈ pr.2) :
    u.data.take 8 = "https://".data ∧ u ≠ "" := by
  obtain ⟨reposRaw, entries, hrepos, _⟩ := loadMap_ok_inv doc mf h
  exact reHttpsMatch_ok u (checkRepos_urls reposRaw mf.repositories hrepos pr hpr u hu)

/-- C6 witness: the amended theorem applied to the loaded `docOk`. -/
theorem c6_url_invariant_witness :
    "https://one.example/".data.take 8 = "https://".data ∧ "https://one.example/" ≠ "" :=
  c6_url_invariant docOk mfOk rfl ("r", ["https://one.example/"]) (by decide)
    "https://one.example/" (by decide)

/-- C7: once a terminating rule matches, nothing of any later rule is
ever emitted (map.py lines 192-194): the whole resolve trace is
independent of the rules after the first matching terminating rule. -/
theorem c7_terminating_cutoff (repos : List (String × List String)) (name : String)
    (pre post post' : List Mapping) (m : Mapping)
    (hm : pathsMatch name m.paths = true) (ht : m.terminating = true) :
    resolveFrom repos name (pre ++ m :: post) =
      resolveFrom repos name (pre ++ m :: post') := by
  induction pre with
  | nil =>
    simp only [List.nil_append, resolveFrom, hm, if_true]
    by_cases hth : m.threshold > 1
    · simp [hth]
    · simp [hth, ht]
  | cons r pre' ih =>
    simp only [List.cons_append, resolveFrom]
    cases hp : pathsMatch name r.paths with
    | false => simp [hp, ih]
    | true =>
      simp only [hp, if_true]
      by_cases hth : r.threshold > 1
      · simp [hth]
      · simp only [if_neg hth]
        cases he : (emitGroups repos r.repositories).2 with
        | some s => simp
        | none =>
          by_cases hterm : r.terminating
          · simp [hterm]
          · simp [hterm, ih]

/-- C7 witness: appending a further catch-all rule after a matching
terminating rule leaves the trace unchanged. -/
theorem c7_terminating_cutoff_witness :
    resolveFrom [("a", ["https://x/"])] "p"
        ([] ++ (⟨["*"], ["a"], true, 1⟩ : Mapping) :: [⟨["*"], ["a"], true, 1⟩]) =
      resolveFrom [("a", ["https://x/"])] "p"
        ([] ++ (⟨["*"], ["a"], true, 1⟩ : Mapping) :: []) :=
  c7_terminating_cutoff [("a", ["https://x/"])] "p" [] [⟨["*"], ["a"], true, 1⟩] []
    ⟨["*"], ["a"], true, 1⟩ (by decide) rfl

/-- C8 counterexample: the claim says a rule matches exactly when some
path matches with `*` as the only wildcard and every other character
literal.  `fnmatch` also treats `?` as a single-character wildcard, so
the rule path `x?` matches the project name `xy` in the code while the
literal reading rejects it. -/
theorem c8_counterexample :
    pathsMatch "xy" ["x?"] = true ∧
      (["x?"].any (fun p => specLitGlobMatch p.data "xy".data)) = false :=
  ⟨rfl, rfl⟩

/-- C8 (amended): for rules whose paths contain neither `?` nor `[` -
`fnmatch` treats those as wildcards - the rule matches exactly when some
path matches under the literal shell-style semantics in which `*`
matches any run of characters and every other character matches itself;
`pathsMatch` itself tests the paths in declared order and stops at the
first success, mirroring the source loop. -/
theorem c8_restricted_glob_equiv (name : String) (paths : List String)
    (h : ∀ p ∈ paths, '?' ∉ p.data ∧ '[' ∉ p.data) :
    pathsMatch name paths = paths.any (fun p => specLitGlobMatch p.data name.data) := by
  rw [pathsMatch_eq_any]
  induction paths with
  | nil => rfl
  | cons p rest ih =>
    have hp := h p (List.mem_cons_self p rest)
    simp only [List.any_cons]
    rw [fnmatchcase_lit name p hp.1 hp.2,
        ih (fun x hx => h x (List.mem_cons_of_mem p hx))]

/-- C8 witness: the amended theorem applied to a wildcard-free rule. -/
theorem c8_restricted_glob_equiv_witness :
    pathsMatch "acme-widget" ["acme-*", "pkg"] =
      ["acme-*", "pkg"].any (fun p => specLitGlobMatch p.data "acme-widget".data) :=
  c8_restricted_glob_equiv "acme-widget" ["acme-*", "pkg"] (by decide)

/-- C9 counterexample: the claim says every failing document fails with
a `ConfigError`, including one whose repositories value is not a
name-to-list mapping.  A truthy non-object repositories value reaches
`repositories.items()` (map.py line 45) with no isinstance check and
escapes with an `AttributeError` instead. -/
theorem c9_counterexample :
    loadMap (.jobj [("repositories", .jstr "pypi")]) =
      .error (.attributeError "items") :=
  rfl

/-- C9 (amended): load yields a map or a typed `ConfigError` exactly for
the documents that avoid the two untyped attribute accesses: the
document must be an object and its repositories value, when present and
truthy, must itself be an object; otherwise an `AttributeError`
escapes. -/
theorem c9_typed_failures (doc : JVal) : isTyped (loadMap doc) = !attrHazard doc := by
  cases doc <;> first
    | rfl
    | simp only [loadMap, attrHazard, isTyped, Bool.not_true]
  case jobj top =>
    cases hg : jget top "repositories" with
    | none => simp [isTyped]
    | some v =>
      by_cases hf : pyFalsy v = true
      · simp [hf, isTyped]
      · simp only [hf, if_false, Bool.not_eq_true] at *
        cases v <;> simp [isTyped, isJObj, hf]
        next reposRaw =>
          cases hb : loadBody top reposRaw with
          | error e => simp [isTyped]
          | ok mf => simp [isTyped]

/-- C9 witness: the amended theorem applied to a non-object document. -/
theorem c9_typed_failures_witness :
    isTyped (loadMap (.jarr [])) = !attrHazard (.jarr []) :=
  c9_typed_failures (.jarr [])

/-- C10: load only accepts rules whose repository references name keys of
the top-level repositories dict (map.py lines 114-120), so the lookup
`self.__repositories[repository]` during emission never raises: on a
loaded map, resolve ends either normally or with the `NotSupported`
condition, never with a missing-key error. -/
theorem c10_no_missing_key (doc : JVal) (mf : Map) (h : loadMap doc = .ok mf)
    (name : String) :
    (Map.resolve mf name).2 = ROutcome.done ∨
      (Map.resolve mf name).2 = ROutcome.notSupported := by
  obtain ⟨reposRaw, entries, hrepos, hentries⟩ := loadMap_ok_inv doc mf h
  have hkeys := checkRepos_keys reposRaw mf.repositories hrepos
  simp only [Map.resolve]
  apply resolveFrom_outcome
  intro m hm r hr
  apply alookup_isSome
  rw [hkeys]
  exact (checkEntries_ok (reposRaw.map Prod.fst) entries mf.mappings hentries m hm).2 r hr

/-- C10 witness: the theorem applied to the loaded `docOk`. -/
theorem c10_no_missing_key_witness :
    (Map.resolve mfOk "pkg").2 = ROutcome.done ∨
      (Map.resolve mfOk "pkg").2 = ROutcome.notSupported :=
  c10_no_missing_key docOk mfOk rfl "pkg"

end PipMap
